import Mathlib

/-!
Verification of the volve-manifest-query repository's manifest index and
search engine against its natural-language specification.

The definitions below are a shallow embedding of the Python source:
  - src/index.py        (ManifestIndex: _split_tags, _build, summary,
                         bucket_files, search)
  - src/api.py          (the /search and bucket endpoints: _dedupe_results,
                         the dedupe keys, pagination)
  - src/src/volve_query/loader.py (load_manifests_from_wells_dir,
                         _normalize_loaded_key, _find_manifest_json_in_well_dir)
  - src/src/volve_query/models.py (ManifestNode, Manifest)

Python strings are modelled as Lean `String` (a list of characters), and the
Python string operations used by the source (strip, lower, replace, split,
substring containment) are defined below at the character-list level so that
everything evaluates by kernel reduction.
-/

namespace VolveQuery

/-! ## Python string primitives -/

/-- The whitespace characters stripped by Python's `str.strip()`. -/
def pyIsSpace (c : Char) : Bool :=
  c = ' ' || c = '\t' || c = '\n' || c = '\r' || c = '\x0b' || c = '\x0c'

/-- Python `s.strip()`: drop leading and trailing whitespace. -/
def pyStrip (s : String) : String :=
  String.mk (((s.data.dropWhile pyIsSpace).reverse.dropWhile pyIsSpace).reverse)

/-- Python `s.lower()` (the sources only lower-case ASCII data). -/
def pyLower (s : String) : String :=
  String.mk (s.data.map Char.toLower)

/-- Python `s.replace(",", "|")` as used by `_split_tags` in src/index.py. -/
def commaToBar (s : String) : String :=
  String.mk (s.data.map (fun c => if c = ',' then '|' else c))

/-- Python `s.replace("_", "/")` as used by `ManifestIndex.search`. -/
def slashify (s : String) : String :=
  String.mk (s.data.map (fun c => if c = '_' then '/' else c))

/-- Python `s.replace("/", "_")` as used by `_normalize_loaded_key`. -/
def underscoreify (s : String) : String :=
  String.mk (s.data.map (fun c => if c = '/' then '_' else c))

/-- Python `s.split(sep)` generalized to a separator predicate: splits the
character list at every separator character, keeping empty segments, so that
`"a||b".split("|") = ["a", "", "b"]` and `"".split("|") = [""]`. -/
def pySplitP (p : Char → Bool) : List Char → List (List Char)
  | [] => [[]]
  | c :: rest =>
    if p c then [] :: pySplitP p rest
    else
      match pySplitP p rest with
      | [] => [[c]]
      | g :: gs => (c :: g) :: gs

/-- Does `hay` start with `needle`? -/
def startsWithChars : List Char → List Char → Bool
  | [], _ => true
  | _ :: _, [] => false
  | a :: as, b :: bs => a = b && startsWithChars as bs

/-- Substring containment on character lists (Python `needle in hay`). -/
def hasSubChars (needle : List Char) : List Char → Bool
  | [] => startsWithChars needle []
  | c :: rest => startsWithChars needle (c :: rest) || hasSubChars needle rest

/-- Python `needle in hay` for strings. -/
def strIn (needle hay : String) : Bool :=
  hasSubChars needle.data hay.data

/-- Python `pathlib.Path(name).stem` for a name ending in ".json": the file
name without its ".json" extension (layout (b) keys in the loader). -/
def pyStem (s : String) : String :=
  String.mk (s.data.dropLast.dropLast.dropLast.dropLast.dropLast)

/-! ## Data model (src/src/volve_query/models.py) -/

/-- The `EntryType` literal from models.py: `"file" | "directory"`. -/
inductive EntryType where
  | file : EntryType
  | directory : EntryType
deriving DecidableEq, Repr

/-- The heterogeneous `tags` field of `ManifestNode`:
`Union[str, List[str], None]`. -/
inductive TagValue where
  | null : TagValue
  | str : String → TagValue
  | list : List String → TagValue
deriving DecidableEq, Repr

/-- Model of `ManifestNode` from models.py (the fields the index consumes). -/
structure ManifestNode where
  path : String
  name : String
  type : EntryType
  tags : TagValue
  foreign_ref_wells : List String
deriving DecidableEq, Repr

/-- Model of `Manifest` from models.py.  Python dicts preserve insertion order, so the
`buckets` mapping is modelled as an association list in that order. -/
structure Manifest where
  well_id : String
  buckets : List (String × List ManifestNode)
  bucket_counts : Option (List (String × Int))
  foreign_ref : Option (List String)
deriving DecidableEq, Repr

/-- Model of `SearchHit` from src/index.py (field-for-field identical to the
`FileEntry` pydantic model that `_hit_to_entry` copies it into). -/
structure SearchHit where
  type : EntryType
  well_key : String
  well_id : String
  bucket : String
  path : String
  filename : String
  tags : List String
deriving DecidableEq, Repr

/-! ## Tag normalization (src/index.py `_split_tags`) -/

/-- Model of `_split_tags` from src/index.py.  `None` gives `[]`; a list gives its
stripped non-empty elements; a string is handled by
`tags.replace(",", "|").split("|")`, stripping each part and dropping empty
parts.  (The final `return [str(tags).strip()]` line is unreachable because
the pydantic model restricts `tags` to `str | List[str] | None`.) -/
def splitTags : TagValue → List String
  | .null => []
  | .list ts => (ts.map pyStrip).filter (fun t => t ≠ "")
  | .str s =>
    ((pySplitP (fun c => c = '|') (commaToBar s).data).map
      (fun p => pyStrip (String.mk p))).filter (fun t => t ≠ "")

/-- Tag normalization exactly as the claim words it: a string value is split
on `|` when a `|` is present, and only otherwise on `,`. -/
def splitTagsClaim : TagValue → List String
  | .null => []
  | .list ts => (ts.map pyStrip).filter (fun t => t ≠ "")
  | .str s =>
    let parts :=
      if s.data.contains '|' then pySplitP (fun c => c = '|') s.data
      else pySplitP (fun c => c = ',') s.data
    (parts.map (fun p => pyStrip (String.mk p))).filter (fun t => t ≠ "")

/-- Tag normalization as the amended claim words it: a string value is split
on `|` and `,` as equivalent separators. -/
def splitTagsAmended : TagValue → List String
  | .null => []
  | .list ts => (ts.map pyStrip).filter (fun t => t ≠ "")
  | .str s =>
    ((pySplitP (fun c => c = '|' || c = ',') s.data).map
      (fun p => pyStrip (String.mk p))).filter (fun t => t ≠ "")

/-! ## Index builder (src/index.py `ManifestIndex._build`) -/

/-- Model of `_filename_from_path` from src/index.py: `PurePosixPath(path).name`.
`PurePosixPath` drops empty and `"."` components and `.name` is the last
remaining component (or `""` when none remain); the `except` fallback is
unreachable for string input. -/
def filenameFromPath (path : String) : String :=
  let comps := (pySplitP (fun c => c = '/') path.data).filter
    (fun c => c ≠ [] ∧ c ≠ ['.'])
  match comps.getLast? with
  | some c => String.mk c
  | none => ""

/-- One node of `ManifestIndex._build`'s inner loop: skip the node when its
path is empty, otherwise produce the flat entry (filename falls back from
`name` to the last path segment, tags are normalized once). -/
def nodeHit (wk wid bname : String) (e : ManifestNode) : Option SearchHit :=
  if e.path = "" then none
  else
    some { type := e.type
           well_key := wk
           well_id := wid
           bucket := bname
           path := e.path
           filename := if e.name ≠ "" then e.name else filenameFromPath e.path
           tags := splitTags e.tags }

/-- The resolved well id of `_build` and `summary`:
`manifest.well_id or well_key.replace("_", "/")`. -/
def resolveWellId (wk : String) (m : Manifest) : String :=
  if m.well_id ≠ "" then m.well_id else slashify wk

/-- Model of `ManifestIndex._build` from src/index.py: the flat entry list, iterating
wells, buckets and nodes in source order. -/
def buildFlat (manifests : List (String × Manifest)) : List SearchHit :=
  (manifests.map (fun wm =>
    ((wm.2.buckets.map (fun bn =>
      bn.2.filterMap (nodeHit wm.1 (resolveWellId wm.1 wm.2) bn.1))).flatten))).flatten

/-! ## Summary aggregator (src/index.py `ManifestIndex.summary`) -/

/-- The summary record returned by `ManifestIndex.summary`. -/
structure WellSummaryS where
  well_key : String
  well_id : String
  bucket_counts : List (String × Int)
  total_files : Int
  foreign_reference_count : Nat
deriving DecidableEq, Repr

/-- Model of `ManifestIndex.summary` from src/index.py: bucket counts prefer a truthy
`m.bucket_counts` (Python treats an empty dict as falsy) and otherwise count
the bucket node lists; `foreign_count = len(m.foreign_ref or [])`. -/
def summaryIdx (well_key : String) (m : Manifest) : WellSummaryS :=
  let bucket_counts :=
    match m.bucket_counts with
    | some bc =>
      if bc.isEmpty then m.buckets.map (fun b => (b.1, (b.2.length : Int)))
      else bc
    | none => m.buckets.map (fun b => (b.1, (b.2.length : Int)))
  { well_key := well_key
    well_id := resolveWellId well_key m
    bucket_counts := bucket_counts
    total_files := (bucket_counts.map (fun p => p.2)).sum
    foreign_reference_count := (m.foreign_ref.getD []).length }

/-- The foreign-reference count exactly as the claim words it: the length of
the per-well list when the manifest records one, otherwise the sum of each
node's `foreignRefWells` lengths.  (This is what the superseded
`_foreign_ref_count` in src/src/volve_query/api.py computed.) -/
def foreignRefCountClaim (m : Manifest) : Nat :=
  match m.foreign_ref with
  | some l => l.length
  | none =>
    ((m.buckets.map (fun b =>
      (b.2.map (fun n => n.foreign_ref_wells.length)).sum)).sum)

/-! ## Search engine (src/index.py `ManifestIndex.search`) -/

/-- Truthiness-guarded mismatch used by the optional filters of `search`:
Python `if well_key and h.well_key != well_key: return False` rejects the
entry exactly when the filter string is non-empty and differs from the
entry's field. -/
def truthyNe (f : Option String) (v : String) : Bool :=
  match f with
  | some w => w ≠ "" && v ≠ w
  | none => false

/-- The text-matching part of the `hit` closure in `ManifestIndex.search`:
the lowered query is tested as a substring of the lowered filename, path,
bucket, well key, well id, or any tag; additionally, when replacing `_` by
`/` changes the query, the changed candidate is tested against the lowered
well id and path. -/
def textMatch (qn : String) (h : SearchHit) : Bool :=
  strIn qn (pyLower h.filename) ||
  strIn qn (pyLower h.path) ||
  strIn qn (pyLower h.bucket) ||
  strIn qn (pyLower h.well_key) ||
  strIn qn (pyLower h.well_id) ||
  h.tags.any (fun t => strIn qn (pyLower t)) ||
  (decide (slashify qn ≠ qn) &&
    (strIn (slashify qn) (pyLower h.well_id) ||
     strIn (slashify qn) (pyLower h.path)))

/-- The full `hit` closure of `ManifestIndex.search`: the optional well-key
and bucket filters, then the text match. -/
def hitPred (qn : String) (wkf bf : Option String) (h : SearchHit) : Bool :=
  !(truthyNe wkf h.well_key) && !(truthyNe bf h.bucket) && textMatch qn h

/-- Model of `ManifestIndex.search` from src/index.py: normalizes the query with
`strip().lower()`, returns `(0, [])` for an empty normalized query, and
otherwise returns the match count and the `[offset, offset+limit)` slice of
the match list. -/
def idxSearch (flat : List SearchHit) (q : String) (wkf bf : Option String)
    (limit offset : Nat) : Nat × List SearchHit :=
  let qn := pyLower (pyStrip q)
  if qn = "" then (0, [])
  else
    let found := flat.filter (hitPred qn wkf bf)
    (found.length, (found.drop offset).take limit)

/-! ## Dedupe and the /search endpoint (src/api.py) -/

/-- The `dedupe_key` query parameter, restricted by the endpoint's
`pattern="^(path|filename)$"`. -/
inductive DedupeKey where
  | path : DedupeKey
  | filename : DedupeKey
deriving DecidableEq, Repr

/-- The dedupe key of `_dedupe_results` in src/api.py:
`r.path if key == "path" else f"{r.well_key}::{r.filename}"`. -/
def dkey : DedupeKey → SearchHit → String
  | .path, r => r.path
  | .filename, r => r.well_key ++ "::" ++ r.filename

/-- Model of `_dedupe_results` from src/api.py: walk the list keeping a set of seen
keys (modelled as a list; only membership is used) and drop entries whose
key was already seen. -/
def dedupeResults (dk : DedupeKey) : List SearchHit → List String → List SearchHit
  | [], _ => []
  | r :: rs, seen =>
    if dkey dk r ∈ seen then dedupeResults dk rs seen
    else r :: dedupeResults dk rs (dkey dk r :: seen)

/-- First-occurrence deduplication as the claim words it, for an arbitrary
key function: keep each entry and discard every later entry with the same
key.  Stated structurally (the later-duplicate filter is applied to the
deduplicated tail), which keeps exactly the first occurrence per key in
order. -/
def specDedupe {κ : Type} [DecidableEq κ] (key : SearchHit → κ) :
    List SearchHit → List SearchHit
  | [] => []
  | x :: xs => x :: (specDedupe key xs).filter (fun y => key y ≠ key x)

/-- The pair key the claim ascribes to `dedupeKey = filename`. -/
def pairKey (r : SearchHit) : String × String :=
  (r.well_key, r.filename)

/-- The directory filter of the /search endpoint:
`include_dirs or h.type != "directory"`. -/
def dirPass (includeDirs : Bool) (h : SearchHit) : Bool :=
  includeDirs || h.type ≠ EntryType.directory

/-- The /search endpoint from src/api.py: fetch up to 999999 hits from
`ManifestIndex.search`, drop directory entries unless requested, dedupe when
enabled, and report `len(results)` as total with the
`[offset, offset+limit)` slice as the page. -/
def apiSearch (flat : List SearchHit) (q : String) (wkf bf : Option String)
    (limit offset : Nat) (includeDirs dedupe : Bool) (dk : DedupeKey) :
    Nat × List SearchHit :=
  let hits := (idxSearch flat q wkf bf 999999 0).2
  let results0 := hits.filter (dirPass includeDirs)
  let results := if dedupe then dedupeResults dk results0 [] else results0
  (results.length, (results.drop offset).take limit)

/-- The final match list as the claim words it: directory exclusion, then
the optional well-key and bucket filters, then text matching, then (when
enabled) first-occurrence deduplication — all applied to the flat index,
with no pagination. -/
def specSearchList (flat : List SearchHit) (q : String) (wkf bf : Option String)
    (includeDirs dedupe : Bool) (dk : DedupeKey) : List SearchHit :=
  let qn := pyLower (pyStrip q)
  let l1 := flat.filter (dirPass includeDirs)
  let l2 := l1.filter (fun h => !(truthyNe wkf h.well_key))
  let l3 := l2.filter (fun h => !(truthyNe bf h.bucket))
  let l4 := l3.filter (textMatch qn)
  if dedupe then specDedupe (dkey dk) l4 else l4

/-! ## Bucket listing endpoint (src/api.py `bucket_files`) -/

/-- Python dict lookup `idx.manifests[well_key]` guarded by
`well_key not in idx.manifests`. -/
def lookupManifest (ms : List (String × Manifest)) (wk : String) :
    Option Manifest :=
  (ms.find? (fun p => p.1 = wk)).map (fun p => p.2)

/-- The response dict of the `/wells/.../buckets/...` endpoint. -/
structure BucketPage where
  well_key : String
  bucket : String
  total : Nat
  offset : Nat
  limit : Nat
  files : List SearchHit
deriving DecidableEq, Repr

/-- Model of `ManifestIndex.bucket_files` from src/index.py: the comprehension
`[h for h in self._flat if h.well_key == well_key and h.bucket == bucket]`.
It always returns a list, never `None`. -/
def bucketFiles (flat : List SearchHit) (wk bucket : String) : List SearchHit :=
  flat.filter (fun h => h.well_key = wk && h.bucket = bucket)

/-- The `bucket_files` endpoint from src/api.py: 404 for an unknown well
key; then `hits = idx.bucket_files(...)`.  The source's subsequent
`if hits is None: raise HTTPException(404, "Unknown bucket for this well")`
can never fire, because `bucket_files` always returns a list, so the
endpoint answers every known well with a 200 page. -/
def bucketFilesEndpoint (ms : List (String × Manifest)) (wk bname : String)
    (limit offset : Nat) : Except String BucketPage :=
  match lookupManifest ms wk with
  | none => .error "Unknown well_key"
  | some _ =>
    let hits := bucketFiles (buildFlat ms) wk bname
    .ok { well_key := wk
          bucket := bname
          total := hits.length
          offset := offset
          limit := limit
          files := (hits.drop offset).take limit }

/-! ## Loader (src/src/volve_query/loader.py) -/

/-- A directory of per-well manifest data, as the loader sees it after JSON
parsing and pydantic validation (both assumed to succeed; the claims here do
not concern malformed files).  `subdirs` lists each subdirectory with the
`*.json` files it contains; `files` lists the top-level `*.json` files.
Both carry OS listing order; the loader sorts them by name itself. -/
structure FSDir where
  subdirs : List (String × List (String × Manifest))
  files : List (String × Manifest)

/-- Lexicographic comparison of character lists (Python string `<` on the
code points, which is how `sorted` orders the loader's names). -/
def charListLt : List Char → List Char → Bool
  | _, [] => false
  | [], _ :: _ => true
  | a :: as, b :: bs => a < b || (a = b && charListLt as bs)

/-- Python string `<`. -/
def strLt (a b : String) : Bool :=
  charListLt a.data b.data

/-- Insertion sort by the name component (the loader applies `sorted(...)`
to subdirectories and glob results; names within one directory listing are
distinct). -/
def insertByName {α : Type} (x : String × α) :
    List (String × α) → List (String × α)
  | [] => [x]
  | y :: ys => if strLt x.1 y.1 then x :: y :: ys else y :: insertByName x ys

/-- Sort an association list by name. -/
def sortByName {α : Type} (l : List (String × α)) : List (String × α) :=
  l.foldr insertByName []

/-- Python dict assignment `manifests[well_key] = m`: replace in place when
the key exists (keeping its position), else append. -/
def dictInsert (d : List (String × Manifest)) (k : String) (v : Manifest) :
    List (String × Manifest) :=
  if d.any (fun p => p.1 = k) then
    d.map (fun p => if p.1 = k then (k, v) else p)
  else d ++ [(k, v)]

/-- The fixed name-preference order of `_find_manifest_json_in_well_dir`. -/
def preferredNames : List String :=
  ["manifest.json", "manifest.normalized.json", "normalized_manifest.json",
   "manifest_normalized.json", "index.json"]

/-- Model of `_find_manifest_json_in_well_dir` from loader.py: the first preferred
name present in the well directory, else the alphabetically first `*.json`
file, else nothing. -/
def findManifestJson (files : List (String × Manifest)) :
    Option (String × Manifest) :=
  match preferredNames.findSome? (fun n => files.find? (fun f => f.1 = n)) with
  | some f => some f
  | none => (sortByName files).head?

/-- Model of `_normalize_loaded_key` from loader.py: the stripped folder name when it
is non-empty after stripping, else the well id with `/` replaced by `_`,
stripped. -/
def normalizeLoadedKey (folderName : String) (m : Manifest) : String :=
  if pyStrip folderName ≠ "" then pyStrip folderName
  else pyStrip (underscoreify m.well_id)

/-- The layout (a) loop of `load_manifests_from_wells_dir`: for each
subdirectory in sorted order, pick its manifest file (skipping
subdirectories with none) and insert it under its normalized key. -/
def loadCaseA (subdirs : List (String × List (String × Manifest))) :
    List (String × Manifest) :=
  (sortByName subdirs).foldl
    (fun acc wd =>
      match findManifestJson wd.2 with
      | none => acc
      | some f => dictInsert acc (normalizeLoadedKey wd.1 f.2) f.2)
    []

/-- Model of `load_manifests_from_wells_dir` from loader.py: when subdirectories
exist, run layout (a) and return its mapping if non-empty; otherwise (no
subdirectories, or layout (a) produced nothing) continue with layout (b),
inserting each top-level `*.json` file under its stem, and fail when the
mapping is still empty. -/
def loadManifestsFromWellsDir (d : FSDir) : Except String (List (String × Manifest)) :=
  let fromA := if d.subdirs.isEmpty then [] else loadCaseA d.subdirs
  if !d.subdirs.isEmpty && !fromA.isEmpty then .ok fromA
  else
    let ms := (sortByName d.files).foldl
      (fun acc f => dictInsert acc (pyStem f.1) f.2) fromA
    if ms.isEmpty then .error "No manifests loaded" else .ok ms

/-- Modelled from the claim: the loader with layout (a) used exclusively
whenever any subdirectory exists — layout (b) is never attempted then, even
when layout (a) yields zero manifests. -/
def loadManifestsClaim (d : FSDir) : Except String (List (String × Manifest)) :=
  if !d.subdirs.isEmpty then
    let fromA := loadCaseA d.subdirs
    if fromA.isEmpty then .error "No manifests loaded" else .ok fromA
  else
    let ms := (sortByName d.files).foldl
      (fun acc f => dictInsert acc (pyStem f.1) f.2) []
    if ms.isEmpty then .error "No manifests loaded" else .ok ms

/-! ## Concrete data used by witnesses and counterexamples -/

/-- The spec's running example node: `{path: "a/b.txt", name: "b.txt",
tags: "X|Y"}`. -/
def nodeB : ManifestNode :=
  { path := "a/b.txt", name := "b.txt", type := .file,
    tags := .str "X|Y", foreign_ref_wells := [] }

/-- The spec's running example well `"A"` with one bucket `"docs"`. -/
def manA : Manifest :=
  { well_id := "15/9-A", buckets := [("docs", [nodeB])],
    bucket_counts := none, foreign_ref := none }

/-- A one-well manifest mapping for well `"A"`. -/
def msA : List (String × Manifest) := [("A", manA)]

/-- The flat entry that `_build` derives from `nodeB`. -/
def entryB : SearchHit :=
  { type := .file, well_key := "A", well_id := "15/9-A", bucket := "docs",
    path := "a/b.txt", filename := "b.txt", tags := ["X", "Y"] }

/-- A manifest with no per-well foreign-reference list but one node-level
foreign reference. -/
def manFR : Manifest :=
  { well_id := "W",
    buckets := [("b", [{ path := "p", name := "n", type := .file,
                         tags := .null, foreign_ref_wells := ["W2"] }])],
    bucket_counts := none, foreign_ref := none }

/-- A manifest with an explicit two-element per-well foreign-reference
list. -/
def manFRlist : Manifest :=
  { well_id := "W", buckets := [], bucket_counts := none,
    foreign_ref := some ["r1", "r2"] }

/-- A wells directory whose only subdirectory contains no JSON file, while a
flat `wA.json` sits at top level. -/
def dirSubdirNoJson : FSDir :=
  { subdirs := [("w1", [])], files := [("wA.json", manA)] }

/-- A wells directory whose only subdirectory contains a manifest. -/
def dirSubdirGood : FSDir :=
  { subdirs := [("w1", [("manifest.json", manA)])], files := [] }

/-- Two manifests distinguished only by their well id. -/
def manOne : Manifest :=
  { well_id := "15/9-1", buckets := [], bucket_counts := none,
    foreign_ref := none }

/-- Second manifest for the duplicate-key example. -/
def manTwo : Manifest :=
  { well_id := "15/9-2", buckets := [], bucket_counts := none,
    foreign_ref := none }

/-- A wells directory with two distinct subdirectories, `"A"` and `"A "`
(trailing space), whose names normalize to the same well key. -/
def dirDupKey : FSDir :=
  { subdirs := [("A", [("manifest.json", manOne)]),
                ("A ", [("manifest.json", manTwo)])],
    files := [] }

/-- An entry whose well id uses the slash form `15/9-F-9A`. -/
def entrySlash : SearchHit :=
  { type := .file, well_key := "K", well_id := "15/9-F-9A", bucket := "docs",
    path := "x", filename := "y", tags := [] }

/-- Dedupe example: well key `"a::b"`, filename `"c"`. -/
def entryColonA : SearchHit :=
  { type := .file, well_key := "a::b", well_id := "w", bucket := "b",
    path := "p1", filename := "c", tags := [] }

/-- Dedupe example: well key `"a"`, filename `"b::c"` — a different
(wellKey, filename) pair whose concatenated string key collides with
`entryColonA`'s. -/
def entryColonB : SearchHit :=
  { type := .file, well_key := "a", well_id := "w", bucket := "b",
    path := "p2", filename := "b::c", tags := [] }

/-! ## Helper lemmas -/

/-- Replacing commas before splitting on bars is the same as splitting on
bars and commas at once. -/
theorem pySplitP_map_comma (l : List Char) :
    pySplitP (fun c => c = '|') (l.map (fun c => if c = ',' then '|' else c)) =
    pySplitP (fun c => c = '|' || c = ',') l := by
  induction l with
  | nil => rfl
  | cons c rest ih =>
    by_cases h : c = ','
    · subst h
      simp [pySplitP, ih]
    · by_cases h2 : c = '|'
      · subst h2
        simp [pySplitP, ih]
      · simp [pySplitP, h, h2, ih]

/-- A constructed string is empty exactly when its character list is. -/
theorem mkString_eq_empty_iff (l : List Char) : String.mk l = "" ↔ l = [] :=
  String.ext_iff

/-! ## C2 -/

/-- C2 counterexample: on the raw tag string `"a,b|c"`, which contains both
separators, `_split_tags` splits on `,` and `|` simultaneously, whereas the
claim (split on `|` first, only else on `,`) would keep `"a,b"` whole. -/
theorem splitTags_mixed_separators_cex :
    splitTags (.str "a,b|c") = ["a", "b", "c"] ∧
    splitTagsClaim (.str "a,b|c") = ["a,b", "c"] ∧
    splitTags (.str "a,b|c") ≠ splitTagsClaim (.str "a,b|c") := by
  refine ⟨by decide, by decide, by decide⟩

/-- C2 (amended): tag normalization returns a canonical ordered sequence of
non-empty trimmed strings; an absent value yields the empty sequence; a
sequence value yields its trimmed non-empty elements in original order; a
string value is split on `|` and `,` as equivalent separators (every `,` is
treated as `|`); a single-token string yields a one-element sequence. -/
theorem splitTags_eq_amended (v : TagValue) :
    splitTags v = splitTagsAmended v := by
  cases v with
  | null => rfl
  | list ts => rfl
  | str s =>
    show ((pySplitP (fun c => c = '|') (commaToBar s).data).map
        (fun p => pyStrip (String.mk p))).filter (fun t => t ≠ "") = _
    rw [show (commaToBar s).data = s.data.map (fun c => if c = ',' then '|' else c) from rfl]
    rw [pySplitP_map_comma]
    rfl

/-! ## C3 -/

/-- C3 (code bug): the claim — and the endpoint's own dead 404 branch — say
an unknown bucket name signals NotFound, but `ManifestIndex.bucket_files`
always returns a list (never `None`), so the endpoint answers well `"A"`
with bucket `"nonexistent-bucket"` (not a key of the manifest's buckets)
with an ordinary 200 page of total 0, indistinguishable from an existing
empty bucket; a known bucket is answered with the flat-index sub-sequence in
index order. -/
theorem bucketFiles_missing_bucket_returns_ok_empty :
    manA.buckets.find? (fun b => b.1 = "nonexistent-bucket") = none ∧
    bucketFilesEndpoint msA "A" "nonexistent-bucket" 10 0 =
      .ok { well_key := "A", bucket := "nonexistent-bucket", total := 0,
            offset := 0, limit := 10, files := [] } ∧
    bucketFilesEndpoint msA "A" "docs" 10 0 =
      .ok { well_key := "A", bucket := "docs", total := 1,
            offset := 0, limit := 10, files := [entryB] } := by
  refine ⟨by decide, rfl, rfl⟩

/-! ## C5 -/

/-- C5: a query that is empty after stripping yields zero matches and an
empty page from `ManifestIndex.search` and from the /search endpoint — not
an error and not a match of every entry. -/
theorem search_empty_query (flat : List SearchHit) (q : String)
    (wkf bf : Option String) (limit offset : Nat)
    (includeDirs dedupe : Bool) (dk : DedupeKey)
    (hq : pyStrip q = "") :
    idxSearch flat q wkf bf limit offset = (0, []) ∧
    apiSearch flat q wkf bf limit offset includeDirs dedupe dk = (0, []) := by
  have hqn : pyLower (pyStrip q) = "" := by
    rw [hq]
    rfl
  have h1 : idxSearch flat q wkf bf limit offset = (0, []) := by
    simp [idxSearch, hqn]
  have h2 : idxSearch flat q wkf bf 999999 0 = (0, []) := by
    simp [idxSearch, hqn]
  refine ⟨h1, ?_⟩
  cases dedupe <;> simp [apiSearch, h2, dedupeResults]

/-- C5 witness at the one-space query, which passes the endpoint's
`min_length=1` validation yet strips to empty. -/
theorem search_empty_query_witness :
    idxSearch [entryB] " " none none 100 0 = (0, []) ∧
    apiSearch [entryB] " " none none 100 0 false true .path = (0, []) :=
  search_empty_query [entryB] " " none none 100 0 false true .path (by decide)

/-! ## C6 -/

/-- C6 counterexample: for a manifest recording no per-well
foreign-reference list but one node-level `foreignRefWells` entry,
`ManifestIndex.summary` reports 0 foreign references, while the claim's
fallback sum gives 1. -/
theorem summary_foreign_count_cex :
    manFR.foreign_ref = none ∧
    (summaryIdx "w" manFR).foreign_reference_count = 0 ∧
    foreignRefCountClaim manFR = 1 ∧
    (summaryIdx "w" manFR).foreign_reference_count ≠ foreignRefCountClaim manFR := by
  refine ⟨rfl, by decide, by decide, by decide⟩

/-- C6 (amended): `summary(wellKey).foreign_reference_count` equals the
length of the manifest's per-well foreign-reference list when the manifest
records one, and is 0 otherwise — node `foreignRefWells` lists are never
consulted. -/
theorem summary_foreign_count (wk : String) (m : Manifest) :
    (m.foreign_ref = none →
      (summaryIdx wk m).foreign_reference_count = 0) ∧
    (∀ l, m.foreign_ref = some l →
      (summaryIdx wk m).foreign_reference_count = l.length) := by
  constructor
  · intro h
    simp [summaryIdx, h]
  · intro l h
    simp [summaryIdx, h]

/-- C6 witness: a manifest with an explicit two-element per-well list is
summarized with foreign-reference count 2. -/
theorem summary_foreign_count_witness :
    (summaryIdx "k" manFRlist).foreign_reference_count = 2 :=
  (summary_foreign_count "k" manFRlist).2 ["r1", "r2"] rfl

/-! ## C7 -/

/-- C7 counterexample: a source directory with one subdirectory (holding no
JSON file) and a flat top-level `wA.json`.  The loader falls through to the
flat layout and returns `wA`, whereas under the claim (layout (a) used
exclusively whenever subdirectories exist) loading would fail with no
manifests. -/
theorem loader_layout_fallback_cex :
    dirSubdirNoJson.subdirs ≠ [] ∧
    loadCaseA dirSubdirNoJson.subdirs = [] ∧
    loadManifestsFromWellsDir dirSubdirNoJson = .ok [("wA", manA)] ∧
    loadManifestsClaim dirSubdirNoJson = .error "No manifests loaded" := by
  refine ⟨by decide, by decide, rfl, rfl⟩

/-- C7 (amended): when the source directory contains at least one
subdirectory and the per-well-subdirectory layout yields at least one
manifest, that layout is used exclusively and the flat layout is never
attempted; when it yields zero manifests the loader falls back to the flat
one-JSON-file-per-well layout. -/
theorem loader_subdir_exclusive (d : FSDir)
    (hsub : d.subdirs ≠ []) (ha : loadCaseA d.subdirs ≠ []) :
    loadManifestsFromWellsDir d = .ok (loadCaseA d.subdirs) := by
  unfold loadManifestsFromWellsDir
  simp only [List.isEmpty_iff]
  simp [hsub, ha]

/-- C7 witness: one subdirectory with a `manifest.json` loads through
layout (a) alone. -/
theorem loader_subdir_exclusive_witness :
    loadManifestsFromWellsDir dirSubdirGood = .ok (loadCaseA dirSubdirGood.subdirs) :=
  loader_subdir_exclusive dirSubdirGood (by decide) (by decide)

/-! ## C9 -/

/-- C9: every entry of the flat index built from any manifest mapping has a
non-empty path — `_build` skips nodes whose path is empty. -/
theorem buildFlat_path_nonempty (ms : List (String × Manifest)) (e : SearchHit)
    (he : e ∈ buildFlat ms) : e.path ≠ "" := by
  unfold buildFlat at he
  obtain ⟨l, hl, hel⟩ := List.mem_flatten.mp he
  obtain ⟨wm, hwm, rfl⟩ := List.mem_map.mp hl
  obtain ⟨l2, hl2, hel2⟩ := List.mem_flatten.mp hel
  obtain ⟨bn, hbn, rfl⟩ := List.mem_map.mp hl2
  obtain ⟨n, hn, hsome⟩ := List.mem_filterMap.mp hel2
  unfold nodeHit at hsome
  by_cases hp : n.path = ""
  · rw [if_pos hp] at hsome
    exact Option.noConfusion hsome
  · rw [if_neg hp] at hsome
    obtain rfl := Option.some.inj hsome
    exact hp

/-- C9 witness: the entry built from the example manifest is in the index
and has the non-empty path `"a/b.txt"`. -/
theorem buildFlat_path_nonempty_witness : entryB.path ≠ "" :=
  buildFlat_path_nonempty msA entryB (by decide)

/-! ## C10 -/

/-- C10: the two distinct subdirectories `"A"` and `"A "` normalize to the
same well key, and the loader silently lets the later-loaded manifest
replace the earlier one: the returned mapping has a single entry holding
`manTwo`, with no error and no duplicate-key report, so well `manOne` is
omitted from the served index. -/
theorem loader_duplicate_key_overwrite :
    normalizeLoadedKey "A" manOne = normalizeLoadedKey "A " manTwo ∧
    loadManifestsFromWellsDir dirDupKey = .ok [("A", manTwo)] := by
  refine ⟨by decide, rfl⟩

/-! ## C4 -/

/-- Replacing underscores by slashes changes any character list that
contains an underscore. -/
theorem map_slash_ne (l : List Char) (h : '_' ∈ l) :
    l.map (fun c => if c = '_' then '/' else c) ≠ l := by
  induction l with
  | nil => cases h
  | cons c rest ih =>
    intro heq
    rw [List.map_cons] at heq
    injection heq with h1 h2
    rcases List.mem_cons.mp h with hc | hc
    · rw [← hc] at h1
      exact absurd h1 (by decide)
    · exact ih hc h2

/-- The slash candidate of a query containing an underscore differs from the
query. -/
theorem slashify_ne_of_underscore (s : String) (h : '_' ∈ s.data) :
    slashify s ≠ s := by
  intro heq
  exact map_slash_ne s.data h (congrArg String.data heq)

/-- C4: when the normalized query contains an underscore, the `hit` closure
of `ManifestIndex.search` additionally tests the candidate with every
underscore replaced by `/` (which then necessarily differs from the query)
case-insensitively against the entry's well id and path, and accepts the
entry when either test succeeds. -/
theorem search_underscore_slash (q : String) (wkf bf : Option String)
    (h : SearchHit)
    (hwk : truthyNe wkf h.well_key = false)
    (hb : truthyNe bf h.bucket = false)
    (hu : '_' ∈ (pyLower (pyStrip q)).data)
    (hm : strIn (slashify (pyLower (pyStrip q))) (pyLower h.well_id) = true ∨
          strIn (slashify (pyLower (pyStrip q))) (pyLower h.path) = true) :
    hitPred (pyLower (pyStrip q)) wkf bf h = true := by
  have hne : slashify (pyLower (pyStrip q)) ≠ pyLower (pyStrip q) :=
    slashify_ne_of_underscore _ hu
  unfold hitPred textMatch
  rw [hwk, hb]
  simp only [Bool.not_false, Bool.true_and, Bool.or_eq_true, Bool.and_eq_true,
    decide_eq_true_eq, ne_eq, List.any_eq_true]
  exact Or.inr ⟨hne, hm⟩

/-- C4 witness: the query `"15_9-F-9A"` matches an entry whose well id is
`"15/9-F-9A"`. -/
theorem search_underscore_slash_witness :
    hitPred (pyLower (pyStrip "15_9-F-9A")) none none entrySlash = true :=
  search_underscore_slash "15_9-F-9A" none none entrySlash rfl rfl
    (by decide) (Or.inl (by decide))

/-! ## C8 -/

/-- First-occurrence deduplication commutes with any filter whose predicate
depends only on the key. -/
theorem specDedupe_filter_comm {κ : Type} [DecidableEq κ] (key : SearchHit → κ)
    (p : SearchHit → Bool) (hp : ∀ x y, key x = key y → p x = p y)
    (l : List SearchHit) :
    specDedupe key (l.filter p) = (specDedupe key l).filter p := by
  induction l with
  | nil => rfl
  | cons x xs ih =>
    by_cases hx : p x = true
    · rw [List.filter_cons_of_pos hx]
      rw [specDedupe, specDedupe, List.filter_cons_of_pos hx, ih]
      rw [List.filter_filter, List.filter_filter]
      exact congrArg _ (List.filter_congr (fun y _ => Bool.and_comm _ _))
    · have hx' : p x = false := by
        cases hpx : p x
        · rfl
        · exact absurd hpx hx
      rw [List.filter_cons_of_neg (by simp [hx']), ih]
      rw [specDedupe, List.filter_cons_of_neg (by simp [hx']), List.filter_filter]
      apply List.filter_congr
      intro y _
      cases hpy : p y
      · simp
      · have hne : ¬ key y = key x := fun hk => by
          rw [hp y x hk, hx'] at hpy
          exact Bool.noConfusion hpy
        simp [hne, hpy]

/-- Running `_dedupe_results` with a seen set equals first-occurrence deduplication
followed by removal of the already-seen keys. -/
theorem dedupeResults_eq_filter (dk : DedupeKey) (l : List SearchHit)
    (seen : List String) :
    dedupeResults dk l seen =
      (specDedupe (dkey dk) l).filter (fun y => dkey dk y ∉ seen) := by
  induction l generalizing seen with
  | nil => rfl
  | cons x xs ih =>
    by_cases hx : dkey dk x ∈ seen
    · rw [dedupeResults, if_pos hx, ih]
      rw [specDedupe, List.filter_cons_of_neg (by simp [hx]), List.filter_filter]
      apply List.filter_congr
      intro y _
      by_cases hy : dkey dk y ∈ seen
      · simp [hy]
      · have : ¬ dkey dk y = dkey dk x := fun hk => hy (hk ▸ hx)
        simp [hy, this]
    · rw [dedupeResults, if_neg hx, ih]
      rw [specDedupe, List.filter_cons_of_pos (by simp [hx]), List.filter_filter]
      apply congrArg
      apply List.filter_congr
      intro y _
      by_cases hy : dkey dk y = dkey dk x
      · simp [hy, hx, List.mem_cons]
      · simp [hy, List.mem_cons]

/-- Running `_dedupe_results` with an empty seen set is exactly first-occurrence
deduplication under the endpoint's key. -/
theorem dedupeResults_eq_specDedupe (dk : DedupeKey) (l : List SearchHit) :
    dedupeResults dk l [] = specDedupe (dkey dk) l := by
  rw [dedupeResults_eq_filter]
  apply List.filter_eq_self.mpr
  intro y _
  simp

/-- First-occurrence deduplication is idempotent. -/
theorem specDedupe_idem {κ : Type} [DecidableEq κ] (key : SearchHit → κ)
    (l : List SearchHit) :
    specDedupe key (specDedupe key l) = specDedupe key l := by
  induction l with
  | nil => rfl
  | cons x xs ih =>
    rw [specDedupe, specDedupe,
      specDedupe_filter_comm key _ (fun a b hk => by rw [hk]), ih,
      List.filter_filter]
    apply congrArg
    apply List.filter_congr
    intro y _
    exact Bool.and_self _

/-- C8 (amended): for either dedupe key mode, `_dedupe_results` walks the
list in order and keeps only the first occurrence per key — the key being
the entry's path for `dedupeKey = path`, and the single string
`wellKey ++ "::" ++ filename` for `dedupeKey = filename` — dropping later
duplicates while preserving the relative order of survivors, and it is
idempotent. -/
theorem dedupe_first_occurrence_idempotent (dk : DedupeKey) (l : List SearchHit) :
    dedupeResults dk l [] = specDedupe (dkey dk) l ∧
    dedupeResults dk (dedupeResults dk l []) [] = dedupeResults dk l [] := by
  refine ⟨dedupeResults_eq_specDedupe dk l, ?_⟩
  rw [dedupeResults_eq_specDedupe, dedupeResults_eq_specDedupe]
  exact specDedupe_idem _ l

/-- C8 counterexample: two entries with distinct (wellKey, filename) pairs
— (`"a::b"`, `"c"`) and (`"a"`, `"b::c"`) — have colliding concatenated
string keys, so `_dedupe_results` with `dedupeKey = filename` drops the
second entry although the claim's pair key would keep both. -/
theorem dedupe_pair_key_cex :
    pairKey entryColonA ≠ pairKey entryColonB ∧
    dkey .filename entryColonA = dkey .filename entryColonB ∧
    dedupeResults .filename [entryColonA, entryColonB] [] = [entryColonA] ∧
    specDedupe pairKey [entryColonA, entryColonB] = [entryColonA, entryColonB] := by
  refine ⟨by decide, by decide, by decide, by decide⟩

/-! ## C1 -/

/-- Applying the directory filter after the index's combined
well-key/bucket/text match gives the same list as the claim's filter order:
directory exclusion, then the optional equality filters, then text
matching. -/
theorem filter_hit_dir (flat : List SearchHit) (qn : String)
    (wkf bf : Option String) (incl : Bool) :
    (flat.filter (hitPred qn wkf bf)).filter (dirPass incl) =
      (((flat.filter (dirPass incl)).filter
        (fun h => !(truthyNe wkf h.well_key))).filter
        (fun h => !(truthyNe bf h.bucket))).filter (textMatch qn) := by
  rw [List.filter_filter, List.filter_filter, List.filter_filter,
    List.filter_filter]
  apply List.filter_congr
  intro h _
  simp only [hitPred]
  cases truthyNe wkf h.well_key <;> cases truthyNe bf h.bucket <;>
    cases textMatch qn h <;> cases dirPass incl h <;> rfl

/-- A lowered string is empty only when the string was. -/
theorem pyLower_ne_empty (s : String) (h : s ≠ "") : pyLower s ≠ "" := by
  intro he
  apply h
  rw [String.ext_iff]
  have := (mkString_eq_empty_iff (s.data.map Char.toLower)).mp he
  simpa using this

/-- With the endpoint's fetch parameters (`limit = 999999`, `offset = 0`)
and at most 999999 matches, `ManifestIndex.search` hands the endpoint the
whole match list. -/
theorem idxSearch_full_fetch (flat : List SearchHit) (q : String)
    (wkf bf : Option String)
    (hq : pyLower (pyStrip q) ≠ "")
    (hcap : (flat.filter (hitPred (pyLower (pyStrip q)) wkf bf)).length ≤ 999999) :
    (idxSearch flat q wkf bf 999999 0).2 =
      flat.filter (hitPred (pyLower (pyStrip q)) wkf bf) := by
  simp only [idxSearch, if_neg hq]
  rw [List.drop_zero, List.take_of_length_le hcap]

/-- C1 (amended): for every search invocation whose query is non-empty
after trimming and whose combined well-key/bucket/text filters match at
most 999999 index entries (the endpoint fetches at most 999999 hits from
the index), the returned total equals the length of the list obtained by
applying directory exclusion, the optional well-key and bucket filters,
text matching, and (when enabled) deduplication to the flat index; the
returned page is the contiguous `[offset, offset+limit)` slice of that same
final ordered list; and the page length is at most `limit` — pagination is
applied last. -/
theorem search_total_page_contract (flat : List SearchHit) (q : String)
    (wkf bf : Option String) (limit offset : Nat) (incl ded : Bool)
    (dk : DedupeKey)
    (hq : pyStrip q ≠ "")
    (hcap : (flat.filter (hitPred (pyLower (pyStrip q)) wkf bf)).length ≤ 999999) :
    (apiSearch flat q wkf bf limit offset incl ded dk).1 =
      (specSearchList flat q wkf bf incl ded dk).length ∧
    (apiSearch flat q wkf bf limit offset incl ded dk).2 =
      ((specSearchList flat q wkf bf incl ded dk).drop offset).take limit ∧
    (apiSearch flat q wkf bf limit offset incl ded dk).2.length ≤ limit := by
  have happly : apiSearch flat q wkf bf limit offset incl ded dk =
      ((specSearchList flat q wkf bf incl ded dk).length,
        ((specSearchList flat q wkf bf incl ded dk).drop offset).take limit) := by
    simp only [apiSearch]
    rw [idxSearch_full_fetch flat q wkf bf (pyLower_ne_empty _ hq) hcap]
    rw [filter_hit_dir]
    simp only [specSearchList]
    cases ded
    · rfl
    · simp only [if_pos, dedupeResults_eq_specDedupe]
  refine ⟨by rw [happly], by rw [happly], ?_⟩
  rw [happly]
  calc (((specSearchList flat q wkf bf incl ded dk).drop offset).take limit).length
      = min limit ((specSearchList flat q wkf bf incl ded dk).drop offset).length :=
        List.length_take _ _
    _ ≤ limit := Nat.min_le_left _ _

/-- C1 witness: the spec's running example — searching `"b.txt"` over the
one-entry index pages and counts the same single-entry final list. -/
theorem search_total_page_contract_witness :
    (apiSearch [entryB] "b.txt" none none 10 0 false true .path).1 =
      (specSearchList [entryB] "b.txt" none none false true .path).length ∧
    (apiSearch [entryB] "b.txt" none none 10 0 false true .path).2 =
      ((specSearchList [entryB] "b.txt" none none false true .path).drop 0).take 10 :=
  ⟨(search_total_page_contract [entryB] "b.txt" none none 10 0 false true .path
      (by decide) (by decide)).1,
   (search_total_page_contract [entryB] "b.txt" none none 10 0 false true .path
      (by decide) (by decide)).2.1⟩

/-- C1 counterexample: on an index of 1000000 matching entries with dedupe
disabled, the endpoint's hard-coded fetch limit of 999999 truncates the
hits before the total is recomputed, so the returned total is 999999 while
the fully filtered list has length 1000000 — the claim as stated (with no
bound on the match count) is false. -/
theorem search_total_cap_cex :
    (apiSearch (List.replicate 1000000 entryB) "b.txt" none none 5 0 true false .path).1
      = 999999 ∧
    (specSearchList (List.replicate 1000000 entryB) "b.txt" none none true false .path).length
      = 1000000 ∧
    (apiSearch (List.replicate 1000000 entryB) "b.txt" none none 5 0 true false .path).1
      ≠ (specSearchList (List.replicate 1000000 entryB) "b.txt" none none true false .path).length := by
  have hhit : hitPred (pyLower (pyStrip "b.txt")) none none entryB = true := by decide
  have hdir : dirPass true entryB = true := by decide
  have htext : textMatch (pyLower (pyStrip "b.txt")) entryB = true := by decide
  have hwk : (!(truthyNe none entryB.well_key)) = true := by decide
  have hbk : (!(truthyNe none entryB.bucket)) = true := by decide
  have h1 : (apiSearch (List.replicate 1000000 entryB) "b.txt" none none 5 0 true false .path).1
      = 999999 := by
    simp only [apiSearch, idxSearch, if_neg (by decide : ¬ pyLower (pyStrip "b.txt") = "")]
    rw [List.drop_zero, List.filter_replicate, if_pos hhit, List.take_replicate]
    rw [List.filter_replicate, if_pos hdir]
    rw [if_neg (by decide : ¬ (false = true))]
    rw [List.length_replicate]
    decide
  have h2 : (specSearchList (List.replicate 1000000 entryB) "b.txt" none none true false .path).length
      = 1000000 := by
    simp only [specSearchList]
    rw [if_neg (by decide : ¬ (false = true))]
    rw [List.filter_replicate, if_pos hdir,
      List.filter_replicate, if_pos hwk,
      List.filter_replicate, if_pos hbk,
      List.filter_replicate, if_pos htext]
    rw [List.length_replicate]
  refine ⟨h1, h2, ?_⟩
  rw [h1, h2]
  decide

end VolveQuery







